import Mathlib

/-!
Shallow embedding of the agentfarm coordinator core
(`pkg/domain/agent.go`, `pkg/domain/soviet.go`, the `ProtocolValidator`,
the `BarrelOfGun` token, and the protocol codec's register-message
validator), together with theorems settling the spec claims.

Modelling conventions:
* Go `time.Time` values are modelled as `Nat` ticks; the global `nowFunc`
  is threaded as an explicit `now` argument into every operation that
  reads the clock.
* Go maps (`map[string]*AgentComrade`) are modelled as
  `String → Option AgentComrade`; in-place mutation of an agent held by
  the map is modelled by updating the map entry.
* Fallible Go methods returning `error` are modelled as returning a pair
  of the updated value and an `Option String` error (Go mutates in place,
  so an error can coexist with a partial state change).
* The optional external dependencies (`repo`, `sender`, `logger`) of
  `SovietState` are omitted: `MemoryAgentRepository.Store` cannot fail for
  a non-nil agent with a non-empty role (the only way it is called), its
  `Delete` error is ignored by `DeregisterAgent`, and `sender`/`logger`
  failures are logged and discarded, so none of them affect the domain
  state or results.
-/

namespace AgentFarm

/-- Agent lifecycle states, from `pkg/domain/agent.go` (`AgentStateWaiting`,
`AgentStateWorking`). The spec calls these `idle` and `active`. -/
inductive AgentState where
  | waiting
  | working
deriving DecidableEq, Repr

/-- A worker record, from `AgentComrade` in `pkg/domain/agent.go`. -/
structure AgentComrade where
  role : String
  agentType : String
  capabilities : List String
  state : AgentState
  connected : Bool
  createdAt : Nat
  lastConnectedAt : Nat
  lastMessage : String
  lastMessageTime : Nat
deriving DecidableEq, Repr

/-- `NewAgentComrade` from `pkg/domain/agent.go`: fresh record in the
waiting state, disconnected. -/
def NewAgentComrade (role agentType : String) (capabilities : List String) (now : Nat) :
    AgentComrade :=
  { role := role
    agentType := agentType
    capabilities := capabilities
    state := AgentState.waiting
    connected := false
    createdAt := now
    lastConnectedAt := 0
    lastMessage := ""
    lastMessageTime := 0 }

/-- `AgentComrade.SetConnected`: updates the connection flag and, when
connecting, the last-connected timestamp. -/
def AgentComrade.SetConnected (a : AgentComrade) (connected : Bool) (now : Nat) :
    AgentComrade :=
  if connected then { a with connected := connected, lastConnectedAt := now }
  else { a with connected := connected }

/-- `AgentComrade.isValidTransition`: only waiting→working and
working→waiting are legal. -/
def AgentComrade.isValidTransition (src dst : AgentState) : Bool :=
  match src with
  | AgentState.waiting => decide (dst = AgentState.working)
  | AgentState.working => decide (dst = AgentState.waiting)

/-- `AgentComrade.TransitionTo`: state change guarded by
`isValidTransition`; on an invalid transition the record is unchanged and
an error is reported. -/
def AgentComrade.TransitionTo (a : AgentComrade) (newState : AgentState) :
    AgentComrade × Option String :=
  if AgentComrade.isValidTransition a.state newState then
    ({ a with state := newState }, none)
  else (a, some "invalid state transition")

/-- `AgentComrade.SetLastMessage`: records the message and its
timestamp. -/
def AgentComrade.SetLastMessage (a : AgentComrade) (message : String) (now : Nat) :
    AgentComrade :=
  { a with lastMessage := message, lastMessageTime := now }

/-- `AgentComrade.Activate`: waiting→working, recording the payload as the
last message; fails without mutating when not waiting. -/
def AgentComrade.Activate (a : AgentComrade) (message : String) (now : Nat) :
    AgentComrade × Option String :=
  if a.state = AgentState.waiting then
    (AgentComrade.SetLastMessage { a with state := AgentState.working } message now, none)
  else (a, some "cannot activate agent, must be waiting")

/-- `AgentComrade.Yield`: working→waiting; fails without mutating when not
working. -/
def AgentComrade.Yield (a : AgentComrade) : AgentComrade × Option String :=
  if a.state = AgentState.working then
    ({ a with state := AgentState.waiting }, none)
  else (a, some "cannot yield, must be working")

/-- One transfer-log entry, from `TransferRecord` in
`pkg/domain/soviet.go` (barrel section). -/
structure TransferRecord where
  fromRole : String
  toRole : String
  message : String
  timestamp : Nat
deriving DecidableEq, Repr

/-- The token, from `BarrelOfGun` in `pkg/domain/soviet.go`. -/
structure BarrelOfGun where
  currentHolder : String
  lastMessage : String
  transferTime : Nat
  history : List TransferRecord
deriving DecidableEq, Repr

/-- `NewBarrelOfGun`: initially held by the people, with one synthetic log
entry. -/
def NewBarrelOfGun (now : Nat) : BarrelOfGun :=
  { currentHolder := "people"
    lastMessage := "Initial barrel creation"
    transferTime := now
    history := [{ fromRole := ""
                  toRole := "people"
                  message := "Initial barrel creation"
                  timestamp := now }] }

/-- `BarrelOfGun.IsHeldBy`. -/
def BarrelOfGun.IsHeldBy (b : BarrelOfGun) (role : String) : Bool :=
  decide (b.currentHolder = role)

/-- `BarrelOfGun.TransferTo`: rejects an empty target and a transfer to
the current holder; otherwise updates holder, last message, timestamp and
appends one record to the history. -/
def BarrelOfGun.TransferTo (b : BarrelOfGun) (toRole message : String) (now : Nat) :
    BarrelOfGun × Option String :=
  if toRole = "" then (b, some "role cannot be empty")
  else if toRole = b.currentHolder then (b, some "cannot transfer to same role")
  else
    ({ currentHolder := toRole
       lastMessage := message
       transferTime := now
       history := b.history ++ [{ fromRole := b.currentHolder
                                  toRole := toRole
                                  message := message
                                  timestamp := now }] }, none)

/-- The yield command, from `YieldMessage` in the domain package; a zero
timestamp makes the message invalid (`IsValid`). -/
structure YieldMessage where
  fromRole : String
  toRole : String
  payload : String
  timestamp : Nat
deriving DecidableEq, Repr

/-- `NewYieldMessage`: the timestamp comes from the clock. -/
def NewYieldMessage (fromRole toRole payload : String) (now : Nat) : YieldMessage :=
  { fromRole := fromRole, toRole := toRole, payload := payload, timestamp := now }

/-- `YieldMessage.IsValid`: non-empty roles and a non-zero timestamp. -/
def YieldMessage.IsValid (m : YieldMessage) : Bool :=
  decide (m.fromRole ≠ "" ∧ m.toRole ≠ "" ∧ m.timestamp ≠ 0)

/-- The collective state, from `SovietState` in `pkg/domain/soviet.go`.
The registry is the Go `map[string]*AgentComrade`; `barrel` is `nil` until
`SetBarrel` is called. -/
structure SovietState where
  agents : String → Option AgentComrade
  barrel : Option BarrelOfGun
  active : Bool
  createdAt : Nat

/-- `NewSovietState`: empty registry, no barrel yet, active. -/
def NewSovietState (now : Nat) : SovietState :=
  { agents := fun _ => none, barrel := none, active := true, createdAt := now }

/-- Pointwise registry update; stands for assigning to or deleting from
the Go map (and for in-place mutation of an agent the map points at). -/
def SovietState.setAgent (s : SovietState) (role : String) (a : Option AgentComrade) :
    SovietState :=
  { s with agents := fun r => if r = role then a else s.agents r }

/-- `SovietState.SetBarrel` (the non-nil case; a nil barrel is rejected in
Go before any mutation). -/
def SovietState.SetBarrel (s : SovietState) (b : BarrelOfGun) : SovietState :=
  { s with barrel := some b }

/-- `SovietState.GetAgent`. -/
def SovietState.GetAgent (s : SovietState) (role : String) : Option AgentComrade :=
  s.agents role

/-- `SovietState.IsAgentRegistered`. -/
def SovietState.IsAgentRegistered (s : SovietState) (role : String) : Bool :=
  (s.agents role).isSome

/-- `SovietState.UnregisterAgent`: rejects an empty role and an unknown
role; otherwise deletes the entry. -/
def SovietState.UnregisterAgent (s : SovietState) (role : String) :
    SovietState × Option String :=
  if role = "" then (s, some "role cannot be empty")
  else
    match s.agents role with
    | none => (s, some "agent is not registered")
    | some _ => (s.setAgent role none, none)

/-- `SovietState.CurrentBarrelHolder`: empty string when no barrel is
set. -/
def SovietState.CurrentBarrelHolder (s : SovietState) : String :=
  match s.barrel with
  | none => ""
  | some b => b.currentHolder

/-- `SovietState.IsBarrelHeldBy`. -/
def SovietState.IsBarrelHeldBy (s : SovietState) (role : String) : Bool :=
  match s.barrel with
  | none => false
  | some b => b.IsHeldBy role

/-- `SovietState.ProcessBarrelTransfer`: delegates to
`BarrelOfGun.TransferTo`; fails when no barrel is set. -/
def SovietState.ProcessBarrelTransfer (s : SovietState) (toRole payload : String)
    (now : Nat) : SovietState × Option String :=
  match s.barrel with
  | none => (s, some "no barrel available for transfer")
  | some b =>
      let r := b.TransferTo toRole payload now
      ({ s with barrel := some r.1 }, r.2)

/-- `SovietState.registerAgent` (the internal insertion): rejects an empty
role and a duplicate role, otherwise inserts. It does not reject the
reserved role `people`. -/
def SovietState.registerAgent (s : SovietState) (agent : AgentComrade) :
    SovietState × Option String :=
  if agent.role = "" then (s, some "agent role cannot be empty")
  else
    match s.agents agent.role with
    | some _ => (s, some "agent role is already registered")
    | none => (s.setAgent agent.role (some agent), none)

/-- `SovietState.RegisterAgent` (the unified coordinator registration):
replaces an existing record for the same role (marking the old record
disconnected before evicting it), inserts the new record, marks it
connected and waiting, and — when the barrel is held by this role —
transitions it to working and reports `(true, lastMessage)` so the peer
resumes. -/
def SovietState.RegisterAgent (s : SovietState) (agent : AgentComrade) (now : Nat) :
    SovietState × Bool × String × Option String :=
  let role := agent.role
  let step :=
    match s.GetAgent role with
    | some existing =>
        (s.setAgent role (some (existing.SetConnected false now))).UnregisterAgent role
    | none => (s, none)
  match step.2 with
  | some msg => (step.1, false, "", some ("failed to unregister existing agent: " ++ msg))
  | none =>
    let reg := step.1.registerAgent agent
    match reg.2 with
    | some msg => (reg.1, false, "", some ("failed to register agent: " ++ msg))
    | none =>
      let a2 := ((agent.SetConnected true now).TransitionTo AgentState.waiting).1
      let s3 := reg.1.setAgent role (some a2)
      match s3.barrel with
      | some b =>
        if b.IsHeldBy role then
          let a3 := (a2.TransitionTo AgentState.working).1
          ((s3.setAgent role (some a3)), true, b.lastMessage, none)
        else (s3, false, "", none)
      | none => (s3, false, "", none)

/-- `SovietState.DeregisterAgent`: unknown roles are rejected; if the
departing role holds the barrel it is transferred back to the people (the
transfer error is discarded), then the record is removed. -/
def SovietState.DeregisterAgent (s : SovietState) (role : String) (now : Nat) :
    SovietState × Option String :=
  if s.IsAgentRegistered role = false then (s, some "agent with role not found")
  else
    let s1 :=
      if s.IsBarrelHeldBy role then
        match s.barrel with
        | some b =>
            let b1 := (b.TransferTo "people" "Agent deregistered, returning barrel to people" now).1
            { s with barrel := some b1 }
        | none => s
      else s
    let unreg := s1.UnregisterAgent role
    match unreg.2 with
    | some msg => (unreg.1, some ("failed to deregister agent: " ++ msg))
    | none => (unreg.1, none)

/-- `ProtocolValidator.ValidateYieldMessage`: shape checks on the yield
command. -/
def ValidateYieldMessage (m : YieldMessage) : Option String :=
  if m.fromRole = "" then some "from_role cannot be empty"
  else if m.toRole = "" then some "to_role cannot be empty"
  else if m.IsValid = false then some "invalid yield message: missing required fields"
  else if m.fromRole = m.toRole then some "agent cannot yield to itself"
  else none

/-- `ProtocolValidator.ValidateBarrelHolderRights`: the people may always
yield; otherwise the requester must be the current holder. -/
def SovietState.ValidateBarrelHolderRights (s : SovietState) (requesterRole : String) :
    Option String :=
  if requesterRole = "people" then none
  else
    match s.barrel with
    | none => some "no barrel available in soviet"
    | some b =>
        if b.IsHeldBy requesterRole = false then
          some "only current barrel holder can yield"
        else none

/-- `ProtocolValidator.ValidateTargetAgent`: the people are always a valid
target; otherwise the target must be registered and connected. -/
def SovietState.ValidateTargetAgent (s : SovietState) (targetRole : String) :
    Option String :=
  if targetRole = "people" then none
  else if s.IsAgentRegistered targetRole = false then some "target agent not found"
  else
    match s.GetAgent targetRole with
    | some agent => if agent.connected = false then some "target agent is not connected" else none
    | none => none

/-- `ProtocolValidator.ValidateAgentStateConsistency`: fails when the
agent is not registered or no barrel is set; otherwise the record must be
working exactly when it holds the barrel. -/
def SovietState.ValidateAgentStateConsistency (s : SovietState) (agentRole : String) :
    Option String :=
  match s.GetAgent agentRole with
  | none => some "agent not found"
  | some agent =>
      match s.barrel with
      | none => some "no barrel available in soviet"
      | some b =>
          if b.IsHeldBy agentRole ∧ agent.state ≠ AgentState.working then
            some "agent state inconsistency: agent has barrel but is waiting"
          else if ¬ b.IsHeldBy agentRole ∧ agent.state = AgentState.working then
            some "agent state inconsistency: agent is working but does not have barrel"
          else none

/-- `ProtocolValidator.ValidateYieldWorkflow`: message shape, holder
rights, target validity, then (for non-people senders only) state
consistency. -/
def SovietState.ValidateYieldWorkflow (s : SovietState) (m : YieldMessage) :
    Option String :=
  match ValidateYieldMessage m with
  | some e => some e
  | none =>
    match s.ValidateBarrelHolderRights m.fromRole with
    | some e => some e
    | none =>
      match s.ValidateTargetAgent m.toRole with
      | some e => some e
      | none =>
        if m.fromRole ≠ "people" then s.ValidateAgentStateConsistency m.fromRole
        else none

/-- `SovietState.ProcessYield`: validates the whole workflow, idles the
sender's record if it exists (discarding the transition error), transfers
the barrel, and — for a non-people target — activates the target's record
(again discarding the transition error). -/
def SovietState.ProcessYield (s : SovietState) (m : YieldMessage) (now : Nat) :
    SovietState × Option String :=
  match s.ValidateYieldWorkflow m with
  | some e => (s, some e)
  | none =>
    let s1 :=
      match s.GetAgent m.fromRole with
      | some a => s.setAgent m.fromRole (some a.Yield.1)
      | none => s
    let tr := s1.ProcessBarrelTransfer m.toRole m.payload now
    match tr.2 with
    | some e => (tr.1, some e)
    | none =>
      let s3 :=
        if m.toRole ≠ "people" then
          match tr.1.GetAgent m.toRole with
          | some t => tr.1.setAgent m.toRole (some (t.Activate m.payload now).1)
          | none => tr.1
        else tr.1
      (s3, none)

/-- The wire-level registration message, from `RegisterMessage` in the
protocol codec package (`src/unnamed/part_000`); `type` carries the
`MessageType` string. -/
structure RegisterMessage where
  type : String
  role : String
  description : String
deriving DecidableEq, Repr

/-- `validateRegisterMessage` from the protocol codec: requires the
REGISTER type, a non-empty role, and rejects the reserved role
`people`. -/
def validateRegisterMessage (msg : RegisterMessage) : Option String :=
  if msg.type ≠ "REGISTER" then some "invalid message type for RegisterMessage"
  else if msg.role = "" then some "role cannot be empty in REGISTER message"
  else if msg.role = "people" then some "people is a reserved role and cannot be registered as an agent"
  else none

/-- The coordinator's start-up state as wired in `cmd/server/main.go`:
`NewSovietState` plus `SetBarrel (NewBarrelOfGun)` — token held by the
people, empty registry. -/
def initialSoviet (now : Nat) : SovietState :=
  (NewSovietState now).SetBarrel (NewBarrelOfGun now)

/-- Role `r` currently has a working (spec: active) record in the
registry. -/
def AgentWorking (s : SovietState) (r : String) : Prop :=
  ∃ a, s.agents r = some a ∧ a.state = AgentState.working

instance (s : SovietState) (r : String) : Decidable (AgentWorking s r) := by
  unfold AgentWorking
  exact match s.agents r with
  | some a => decidable_of_iff (a.state = AgentState.working) (by simp)
  | none => Decidable.isFalse (by simp)

/-- Invariant carried through the restricted operation sequences: a barrel
is set, no record is keyed by the empty or reserved role, and a working
record's role is the token holder. -/
def Inv (s : SovietState) : Prop :=
  (∃ b, s.barrel = some b) ∧
  ∀ r a, s.agents r = some a →
    r ≠ "" ∧ r ≠ "people" ∧ (a.state = AgentState.working → s.CurrentBarrelHolder = r)

/-- Coordinator states reachable from the start-up state by register,
deregister and yield operations, restricted so that no registration uses
the reserved role and every people-yield happens while the people hold
the token. -/
inductive ReachableByOps : SovietState → Prop where
  | init (now : Nat) : ReachableByOps (initialSoviet now)
  | register (s : SovietState) (agent : AgentComrade) (now : Nat) :
      ReachableByOps s → agent.role ≠ "people" →
      ReachableByOps (s.RegisterAgent agent now).1
  | deregister (s : SovietState) (role : String) (now : Nat) :
      ReachableByOps s → ReachableByOps (s.DeregisterAgent role now).1
  | yield (s : SovietState) (m : YieldMessage) (now : Nat) :
      ReachableByOps s →
      (m.fromRole ≠ "people" ∨ s.CurrentBarrelHolder = "people") →
      ReachableByOps (s.ProcessYield m now).1


lemma agents_setAgent (s : SovietState) (role : String) (oa : Option AgentComrade) (r : String) :
    (s.setAgent role oa).agents r = if r = role then oa else s.agents r := rfl

lemma barrel_setAgent (s : SovietState) (role : String) (oa : Option AgentComrade) :
    (s.setAgent role oa).barrel = s.barrel := rfl

lemma barrel_UnregisterAgent (s : SovietState) (role : String) :
    (s.UnregisterAgent role).1.barrel = s.barrel := by
  unfold SovietState.UnregisterAgent
  split
  · rfl
  · split <;> rfl

lemma barrel_registerAgent (s : SovietState) (agent : AgentComrade) :
    (s.registerAgent agent).1.barrel = s.barrel := by
  unfold SovietState.registerAgent
  split
  · rfl
  · split <;> rfl

lemma RegisterAgent_token_frame (s : SovietState) (agent : AgentComrade) (now : Nat) :
    (s.RegisterAgent agent now).1.barrel = s.barrel := by
  simp only [SovietState.RegisterAgent]
  have hstep : (match s.GetAgent agent.role with
    | some existing =>
        (s.setAgent agent.role (some (existing.SetConnected false now))).UnregisterAgent agent.role
    | none => (s, none)).1.barrel = s.barrel := by
    split
    · rw [barrel_UnregisterAgent, barrel_setAgent]
    · rfl
  split
  · exact hstep
  · split
    · rw [barrel_registerAgent]; exact hstep
    · split
      · split <;> simp only [barrel_setAgent, barrel_registerAgent, hstep]
      · simp only [barrel_setAgent, barrel_registerAgent, hstep]

lemma IsHeldBy_iff (b : BarrelOfGun) (role : String) :
    b.IsHeldBy role = true ↔ b.currentHolder = role := by
  simp [BarrelOfGun.IsHeldBy]

lemma TransferTo_ok (b : BarrelOfGun) (target payload : String) (now : Nat)
    (h1 : target ≠ "") (h2 : target ≠ b.currentHolder) :
    b.TransferTo target payload now =
      ({ currentHolder := target
         lastMessage := payload
         transferTime := now
         history := b.history ++ [{ fromRole := b.currentHolder
                                    toRole := target
                                    message := payload
                                    timestamp := now }] }, none) := by
  unfold BarrelOfGun.TransferTo
  rw [if_neg h1, if_neg h2]

lemma TransferTo_err (b : BarrelOfGun) (target payload : String) (now : Nat)
    (h : target = "" ∨ target = b.currentHolder) :
    (b.TransferTo target payload now).1 = b ∧ (b.TransferTo target payload now).2.isSome := by
  unfold BarrelOfGun.TransferTo
  rcases h with h | h
  · rw [if_pos h]; exact ⟨rfl, rfl⟩
  · by_cases h0 : target = ""
    · rw [if_pos h0]; exact ⟨rfl, rfl⟩
    · rw [if_neg h0, if_pos h]; exact ⟨rfl, rfl⟩

lemma ValidateYieldMessage_none (m : YieldMessage) (h : ValidateYieldMessage m = none) :
    m.fromRole ≠ "" ∧ m.toRole ≠ "" ∧ m.fromRole ≠ m.toRole := by
  unfold ValidateYieldMessage at h
  split_ifs at h with h1 h2 h3 h4
  exact ⟨h1, h2, h4⟩

lemma ValidateBarrelHolderRights_none (s : SovietState) (r : String)
    (h : s.ValidateBarrelHolderRights r = none) :
    r = "people" ∨ ∃ b, s.barrel = some b ∧ b.currentHolder = r := by
  by_cases h1 : r = "people"
  · exact Or.inl h1
  · right
    unfold SovietState.ValidateBarrelHolderRights at h
    rw [if_neg h1] at h
    cases hb : s.barrel with
    | none => rw [hb] at h; cases h
    | some b =>
        rw [hb] at h
        dsimp only at h
        split_ifs at h with h2
        refine ⟨b, rfl, ?_⟩
        exact (IsHeldBy_iff b r).mp (by revert h2; cases hh : b.IsHeldBy r <;> simp [hh])

lemma ValidateTargetAgent_none (s : SovietState) (t : String)
    (h : s.ValidateTargetAgent t = none) :
    t = "people" ∨ ∃ a, s.agents t = some a ∧ a.connected = true := by
  by_cases h1 : t = "people"
  · exact Or.inl h1
  · right
    unfold SovietState.ValidateTargetAgent SovietState.IsAgentRegistered SovietState.GetAgent at h
    rw [if_neg h1] at h
    cases ha : s.agents t with
    | none => rw [ha] at h; simp at h
    | some a =>
        rw [ha] at h
        rw [if_neg (by simp)] at h
        dsimp only at h
        split_ifs at h with h2
        exact ⟨a, rfl, by revert h2; cases hc : a.connected <;> simp [hc]⟩

lemma ValidateAgentStateConsistency_none (s : SovietState) (r : String)
    (h : s.ValidateAgentStateConsistency r = none) :
    ∃ a b, s.agents r = some a ∧ s.barrel = some b ∧
      (a.state = AgentState.working ↔ b.currentHolder = r) := by
  unfold SovietState.ValidateAgentStateConsistency SovietState.GetAgent at h
  cases ha : s.agents r with
  | none => rw [ha] at h; cases h
  | some a =>
      rw [ha] at h
      dsimp only at h
      cases hb : s.barrel with
      | none => rw [hb] at h; cases h
      | some b =>
          rw [hb] at h
          dsimp only at h
          split_ifs at h with h1 h2
          refine ⟨a, b, rfl, rfl, ?_, ?_⟩
          · intro hw
            by_contra hne
            exact h2 ⟨fun hh => hne ((IsHeldBy_iff b r).mp hh), hw⟩
          · intro hh
            by_contra hnw
            exact h1 ⟨(IsHeldBy_iff b r).mpr hh, hnw⟩

lemma ValidateYieldWorkflow_none (s : SovietState) (m : YieldMessage)
    (h : s.ValidateYieldWorkflow m = none) :
    ValidateYieldMessage m = none ∧
    s.ValidateBarrelHolderRights m.fromRole = none ∧
    s.ValidateTargetAgent m.toRole = none ∧
    (m.fromRole ≠ "people" → s.ValidateAgentStateConsistency m.fromRole = none) := by
  unfold SovietState.ValidateYieldWorkflow at h
  revert h
  split
  · intro h; cases h
  · rename_i h1
    split
    · intro h; cases h
    · rename_i h2
      split
      · intro h; cases h
      · rename_i h3
        split_ifs with h4
        · intro h; exact ⟨h1, h2, h3, fun _ => h⟩
        · intro _; exact ⟨h1, h2, h3, fun hc => absurd hc h4⟩

lemma ProcessYield_err (s : SovietState) (m : YieldMessage) (now : Nat) (e : String)
    (h : s.ValidateYieldWorkflow m = some e) :
    s.ProcessYield m now = (s, some e) := by
  simp [SovietState.ProcessYield, h]

lemma Yield_state (a : AgentComrade) : a.Yield.1.state = AgentState.waiting := by
  unfold AgentComrade.Yield
  split_ifs with h
  · rfl
  · cases hs : a.state
    · rfl
    · exact absurd hs h

lemma Activate_state (t : AgentComrade) (p : String) (n : Nat) :
    (t.Activate p n).1.state = AgentState.working := by
  unfold AgentComrade.Activate
  split_ifs with h
  · rfl
  · cases hs : t.state
    · exact absurd hs h
    · rfl

lemma TransitionTo_waiting_state (x : AgentComrade) :
    ((x.TransitionTo AgentState.waiting).1).state = AgentState.waiting := by
  unfold AgentComrade.TransitionTo AgentComrade.isValidTransition
  cases hs : x.state <;> simp [hs]

lemma TransitionTo_working_of_waiting (x : AgentComrade) (h : x.state = AgentState.waiting) :
    ((x.TransitionTo AgentState.working).1).state = AgentState.working := by
  unfold AgentComrade.TransitionTo AgentComrade.isValidTransition
  rw [h]
  simp

lemma ProcessBarrelTransfer_some (s : SovietState) (b : BarrelOfGun)
    (hb : s.barrel = some b) (toRole payload : String) (now : Nat) :
    s.ProcessBarrelTransfer toRole payload now =
      ({ s with barrel := some (b.TransferTo toRole payload now).1 },
        (b.TransferTo toRole payload now).2) := by
  unfold SovietState.ProcessBarrelTransfer
  rw [hb]

lemma registerAgent_free (s : SovietState) (agent : AgentComrade)
    (hrole : agent.role ≠ "") (habs : s.agents agent.role = none) :
    s.registerAgent agent = (s.setAgent agent.role (some agent), none) := by
  unfold SovietState.registerAgent
  rw [if_neg hrole, habs]

lemma UnregisterAgent_some (s : SovietState) (role : String) (a : AgentComrade)
    (hrole : role ≠ "") (ha : s.agents role = some a) :
    s.UnregisterAgent role = (s.setAgent role none, none) := by
  unfold SovietState.UnregisterAgent
  rw [if_neg hrole, ha]

lemma IsBarrelHeldBy_iff (s : SovietState) (role : String) :
    s.IsBarrelHeldBy role = true ↔ ∃ b, s.barrel = some b ∧ b.currentHolder = role := by
  unfold SovietState.IsBarrelHeldBy
  cases hb : s.barrel with
  | none => simp
  | some b => simp [IsHeldBy_iff]

lemma CurrentBarrelHolder_some (s : SovietState) (b : BarrelOfGun) (hb : s.barrel = some b) :
    s.CurrentBarrelHolder = b.currentHolder := by
  unfold SovietState.CurrentBarrelHolder
  rw [hb]

lemma RegisterAgent_ok (s : SovietState) (agent : AgentComrade) (now : Nat)
    (hrole : agent.role ≠ "") :
    (s.RegisterAgent agent now).2.2.2 = none ∧
    (s.CurrentBarrelHolder = agent.role →
        (s.RegisterAgent agent now).2.1 = true ∧
        (∀ b, s.barrel = some b → (s.RegisterAgent agent now).2.2.1 = b.lastMessage) ∧
        (∀ r, (s.RegisterAgent agent now).1.agents r =
            if r = agent.role then
              some ((((agent.SetConnected true now).TransitionTo
                AgentState.waiting).1).TransitionTo AgentState.working).1
            else s.agents r)) ∧
    (s.CurrentBarrelHolder ≠ agent.role →
        (s.RegisterAgent agent now).2.1 = false ∧
        (s.RegisterAgent agent now).2.2.1 = "" ∧
        (∀ r, (s.RegisterAgent agent now).1.agents r =
            if r = agent.role then
              some (((agent.SetConnected true now).TransitionTo AgentState.waiting).1)
            else s.agents r)) := by
  obtain ⟨t, ht, htb, hta⟩ :
      ∃ t : SovietState,
        (match s.GetAgent agent.role with
          | some existing =>
              (s.setAgent agent.role
                (some (existing.SetConnected false now))).UnregisterAgent agent.role
          | none => (s, none)) = (t, none) ∧
        t.barrel = s.barrel ∧
        (∀ r, t.agents r = if r = agent.role then none else s.agents r) := by
    unfold SovietState.GetAgent
    cases hg : s.agents agent.role with
    | some ex =>
        refine ⟨(s.setAgent agent.role (some (ex.SetConnected false now))).setAgent
          agent.role none, ?_, rfl, ?_⟩
        · dsimp only
          rw [UnregisterAgent_some _ _ (ex.SetConnected false now) hrole
            (by simp [agents_setAgent])]
        · intro r
          simp only [agents_setAgent]
          split_ifs <;> rfl
    | none =>
        refine ⟨s, rfl, rfl, ?_⟩
        intro r
        split_ifs with h
        · rw [h, hg]
        · rfl
  have htn : t.agents agent.role = none := by rw [hta]; simp
  simp only [SovietState.RegisterAgent, ht, registerAgent_free t agent hrole htn]
  have hbar : ((t.setAgent agent.role (some agent)).setAgent agent.role
      (some (((agent.SetConnected true now).TransitionTo AgentState.waiting).1))).barrel
      = s.barrel := by
    simp only [barrel_setAgent, htb]
  cases hb : s.barrel with
  | none =>
      rw [hb] at hbar
      rw [hbar]
      dsimp only
      have hcb : s.CurrentBarrelHolder = "" := by
        unfold SovietState.CurrentBarrelHolder
        rw [hb]
      refine ⟨rfl, ?_, ?_⟩
      · intro hc
        exact absurd (hcb ▸ hc).symm hrole
      · intro _
        refine ⟨rfl, rfl, ?_⟩
        intro r
        simp only [agents_setAgent, hta]
        split_ifs <;> rfl
  | some b =>
      rw [hb] at hbar
      rw [hbar]
      dsimp only
      have hcb : s.CurrentBarrelHolder = b.currentHolder := CurrentBarrelHolder_some s b hb
      by_cases hh : b.currentHolder = agent.role
      · rw [if_pos ((IsHeldBy_iff b agent.role).mpr hh)]
        refine ⟨rfl, ?_, ?_⟩
        · intro _
          refine ⟨rfl, ?_, ?_⟩
          · intro b2 hb2
            obtain rfl := Option.some.inj hb2
            rfl
          · intro r
            simp only [agents_setAgent, hta]
            split_ifs <;> rfl
        · intro hc
          exact absurd (hcb.trans hh) hc
      · rw [if_neg (fun hcon => hh ((IsHeldBy_iff b agent.role).mp hcon))]
        refine ⟨rfl, ?_, ?_⟩
        · intro hc
          exact absurd (hcb.symm.trans hc) hh
        · intro _
          refine ⟨rfl, rfl, ?_⟩
          intro r
          simp only [agents_setAgent, hta]
          split_ifs <;> rfl

lemma ProcessYield_ok (s : SovietState) (m : YieldMessage) (now : Nat) (b : BarrelOfGun)
    (hw : s.ValidateYieldWorkflow m = none) (hb : s.barrel = some b)
    (hto : m.toRole ≠ b.currentHolder) :
    (s.ProcessYield m now).2 = none ∧
    (s.ProcessYield m now).1.barrel = some (b.TransferTo m.toRole m.payload now).1 ∧
    (∀ r, (s.ProcessYield m now).1.agents r =
      (if m.toRole ≠ "people" ∧ r = m.toRole then
        (if r = m.fromRole then (s.agents r).map (fun a => a.Yield.1)
         else s.agents r).map (fun t => (t.Activate m.payload now).1)
       else
        (if r = m.fromRole then (s.agents r).map (fun a => a.Yield.1)
         else s.agents r))) := by
  obtain ⟨hmsg, hrights, htarget, hcons⟩ := ValidateYieldWorkflow_none s m hw
  obtain ⟨hf0, ht0, hfnet⟩ := ValidateYieldMessage_none m hmsg
  have htr := TransferTo_ok b m.toRole m.payload now ht0 hto
  obtain ⟨s1, hs1, hs1b, hs1a⟩ :
      ∃ s1 : SovietState,
        (match s.GetAgent m.fromRole with
          | some a => s.setAgent m.fromRole (some a.Yield.1)
          | none => s) = s1 ∧
        s1.barrel = s.barrel ∧
        (∀ r, s1.agents r =
          if r = m.fromRole then (s.agents r).map (fun a => a.Yield.1) else s.agents r) := by
    unfold SovietState.GetAgent
    cases hg : s.agents m.fromRole with
    | some a =>
        refine ⟨s.setAgent m.fromRole (some a.Yield.1), rfl, rfl, ?_⟩
        intro r
        simp only [agents_setAgent]
        split_ifs with h
        · rw [h, hg]; rfl
        · rfl
    | none =>
        refine ⟨s, rfl, rfl, ?_⟩
        intro r
        split_ifs with h
        · rw [h, hg]; rfl
        · rfl
  simp only [SovietState.ProcessYield, hw, hs1,
    ProcessBarrelTransfer_some s1 b (hs1b.trans hb) m.toRole m.payload now, htr]
  refine ⟨trivial, ?_, ?_⟩
  · by_cases hp : m.toRole = "people"
    · rw [if_neg (by simp [hp])]
    · rw [if_pos hp]
      unfold SovietState.GetAgent
      dsimp only
      cases hgt : s1.agents m.toRole with
      | none => dsimp only
      | some t => dsimp only [SovietState.setAgent]
  · intro r
    by_cases hp : m.toRole = "people"
    · rw [if_neg (by simp [hp]), if_neg (by simp [hp])]
      dsimp only
      exact hs1a r
    · rw [if_pos hp]
      unfold SovietState.GetAgent
      dsimp only
      cases hgt : s1.agents m.toRole with
      | none =>
          dsimp only
          rw [hs1a m.toRole, if_neg (fun hc => hfnet hc.symm)] at hgt
          by_cases hr : r = m.toRole
          · subst hr
            rw [if_pos ⟨hp, rfl⟩, hs1a m.toRole, if_neg (fun hc => hfnet hc.symm), hgt]
            rfl
          · rw [if_neg (fun hc => hr hc.2)]
            exact hs1a r
      | some t =>
          rw [agents_setAgent]
          dsimp only
          rw [hs1a m.toRole, if_neg (fun hc => hfnet hc.symm)] at hgt
          by_cases hr : r = m.toRole
          · subst hr
            rw [if_pos rfl, if_pos ⟨hp, rfl⟩, if_neg (fun hc => hfnet hc.symm), hgt]
            rfl
          · rw [if_neg hr, if_neg (fun hc => hr hc.2)]
            exact hs1a r

lemma not_holder_of_not_held (s : SovietState) (role : String)
    (hrole : role ≠ "") (hheld : s.IsBarrelHeldBy role = false) :
    s.CurrentBarrelHolder ≠ role := by
  intro hc
  unfold SovietState.CurrentBarrelHolder at hc
  unfold SovietState.IsBarrelHeldBy at hheld
  cases hbb : s.barrel with
  | none =>
      rw [hbb] at hc
      exact hrole hc.symm
  | some b =>
      rw [hbb] at hc hheld
      exact absurd (hheld.symm.trans ((IsHeldBy_iff b role).mpr hc)) (by decide)

lemma DeregisterAgent_ok (s : SovietState) (role : String) (now : Nat) (a : AgentComrade)
    (hrole : role ≠ "") (ha : s.agents role = some a) :
    (s.DeregisterAgent role now).2 = none ∧
    (∀ r, (s.DeregisterAgent role now).1.agents r = if r = role then none else s.agents r) ∧
    ((s.DeregisterAgent role now).1.barrel.isSome = s.barrel.isSome) ∧
    (s.CurrentBarrelHolder = role →
      (s.DeregisterAgent role now).1.CurrentBarrelHolder = "people") ∧
    (s.CurrentBarrelHolder ≠ role → (s.DeregisterAgent role now).1.barrel = s.barrel) := by
  have hreg : s.IsAgentRegistered role = true := by
    unfold SovietState.IsAgentRegistered
    rw [ha]
    rfl
  unfold SovietState.DeregisterAgent
  rw [hreg, if_neg (by simp)]
  dsimp only
  cases hheld : s.IsBarrelHeldBy role with
  | false =>
      rw [if_neg (by simp [hheld])]
      rw [UnregisterAgent_some s role a hrole ha]
      dsimp only
      refine ⟨rfl, fun r => rfl, rfl, ?_, fun _ => rfl⟩
      intro hc
      exact absurd hc (not_holder_of_not_held s role hrole hheld)
  | true =>
      rw [if_pos rfl]
      obtain ⟨b, hb, hold⟩ := (IsBarrelHeldBy_iff s role).mp hheld
      rw [hb]
      dsimp only
      have hu := UnregisterAgent_some
        { agents := s.agents
          barrel := some (b.TransferTo "people"
            "Agent deregistered, returning barrel to people" now).1
          active := s.active
          createdAt := s.createdAt } role a hrole ha
      rw [hu]
      dsimp only
      refine ⟨rfl, fun r => rfl, ?_, ?_, ?_⟩
      · rfl
      · intro _
        unfold SovietState.CurrentBarrelHolder
        by_cases hpe : ("people" : String) = b.currentHolder
        · rw [((TransferTo_err b "people"
            "Agent deregistered, returning barrel to people" now) (Or.inr hpe)).1]
          exact hpe.symm
        · rw [TransferTo_ok b "people"
            "Agent deregistered, returning barrel to people" now (by decide) hpe]
          rfl
      · intro hc
        exact absurd ((CurrentBarrelHolder_some s b hb).trans hold) hc

lemma ProcessYield_unauthorized (s : SovietState) (m : YieldMessage) (now : Nat)
    (h1 : m.fromRole ≠ "people") (h2 : s.CurrentBarrelHolder ≠ m.fromRole) :
    (s.ProcessYield m now).1 = s ∧ (s.ProcessYield m now).2.isSome := by
  cases hw : s.ValidateYieldWorkflow m with
  | some e =>
      rw [ProcessYield_err s m now e hw]
      exact ⟨rfl, rfl⟩
  | none =>
      exfalso
      obtain ⟨_, hrights, _, _⟩ := ValidateYieldWorkflow_none s m hw
      rcases ValidateBarrelHolderRights_none s m.fromRole hrights with h | ⟨b, hb, hold⟩
      · exact h1 h
      · exact h2 ((CurrentBarrelHolder_some s b hb).trans hold)

lemma ProcessYield_target_invalid (s : SovietState) (m : YieldMessage) (now : Nat)
    (a : AgentComrade) (hp : m.toRole ≠ "people") (ha : s.agents m.toRole = some a)
    (hc : a.connected = false) :
    (s.ProcessYield m now).1 = s ∧ (s.ProcessYield m now).2.isSome := by
  cases hw : s.ValidateYieldWorkflow m with
  | some e =>
      rw [ProcessYield_err s m now e hw]
      exact ⟨rfl, rfl⟩
  | none =>
      exfalso
      obtain ⟨_, _, htarget, _⟩ := ValidateYieldWorkflow_none s m hw
      rcases ValidateTargetAgent_none s m.toRole htarget with h | ⟨a2, ha2, hconn⟩
      · exact hp h
      · rw [ha] at ha2
        obtain rfl := Option.some.inj ha2
        rw [hc] at hconn
        exact Bool.false_ne_true hconn

lemma SetConnected_state (a : AgentComrade) (c : Bool) (now : Nat) :
    (a.SetConnected c now).state = a.state := by
  unfold AgentComrade.SetConnected
  split_ifs <;> rfl

lemma CurrentBarrelHolder_congr (s1 s2 : SovietState) (h : s1.barrel = s2.barrel) :
    s1.CurrentBarrelHolder = s2.CurrentBarrelHolder := by
  unfold SovietState.CurrentBarrelHolder
  rw [h]

lemma RegisterAgent_empty_role (s : SovietState) (agent : AgentComrade) (now : Nat)
    (h : agent.role = "") :
    (s.RegisterAgent agent now).2.2.2.isSome ∧
    (s.RegisterAgent agent now).1.barrel = s.barrel ∧
    (∀ r, ((s.RegisterAgent agent now).1.agents r).map AgentComrade.state =
      (s.agents r).map AgentComrade.state) ∧
    (∀ r, ((s.RegisterAgent agent now).1.agents r).isSome = (s.agents r).isSome) := by
  unfold SovietState.RegisterAgent SovietState.GetAgent
  cases hg : s.agents agent.role with
  | some ex =>
      dsimp only
      rw [hg]
      dsimp only
      have hu : (s.setAgent agent.role
          (some (ex.SetConnected false now))).UnregisterAgent agent.role =
          (s.setAgent agent.role (some (ex.SetConnected false now)), some "role cannot be empty") := by
        unfold SovietState.UnregisterAgent
        rw [if_pos h]
      rw [hu]
      refine ⟨rfl, rfl, ?_, ?_⟩
      · intro r
        rw [agents_setAgent]
        split_ifs with hr
        · rw [hr, hg]
          dsimp only [Option.map]
          rw [SetConnected_state]
        · rfl
      · intro r
        rw [agents_setAgent]
        split_ifs with hr
        · rw [hr, hg]
          rfl
        · rfl
  | none =>
      dsimp only
      rw [hg]
      dsimp only
      have hreg : s.registerAgent agent = (s, some "agent role cannot be empty") := by
        unfold SovietState.registerAgent
        rw [if_pos h]
      rw [hreg]
      exact ⟨rfl, rfl, fun r => rfl, fun r => rfl⟩

lemma DeregisterAgent_unknown (s : SovietState) (role : String) (now : Nat)
    (h : s.agents role = none) :
    s.DeregisterAgent role now = (s, some "agent with role not found") := by
  unfold SovietState.DeregisterAgent
  rw [if_pos]
  unfold SovietState.IsAgentRegistered
  rw [h]
  rfl

lemma inv_register (s : SovietState) (agent : AgentComrade) (now : Nat)
    (hI : Inv s) (hrole : agent.role ≠ "people") :
    Inv (s.RegisterAgent agent now).1 := by
  obtain ⟨⟨b, hb⟩, hrec⟩ := hI
  by_cases hempty : agent.role = ""
  · obtain ⟨_, hbar, hstate, hsome⟩ := RegisterAgent_empty_role s agent now hempty
    refine ⟨⟨b, by rw [hbar, hb]⟩, ?_⟩
    intro r a ha
    have hs : (s.agents r).isSome = true := by
      rw [← hsome r, ha]
      rfl
    obtain ⟨a0, ha0⟩ := Option.isSome_iff_exists.mp hs
    obtain ⟨h1, h2, h3⟩ := hrec r a0 ha0
    refine ⟨h1, h2, ?_⟩
    intro hw
    have hst := hstate r
    rw [ha, ha0] at hst
    dsimp only [Option.map] at hst
    have : a0.state = AgentState.working := by
      rw [← Option.some.inj hst, hw]
    rw [CurrentBarrelHolder_congr _ _ hbar]
    exact h3 this
  · obtain ⟨_, hresume, hnores⟩ := RegisterAgent_ok s agent now hempty
    have hbar : (s.RegisterAgent agent now).1.barrel = s.barrel :=
      RegisterAgent_token_frame s agent now
    refine ⟨⟨b, by rw [hbar, hb]⟩, ?_⟩
    have hhold := CurrentBarrelHolder_congr _ _ hbar
    by_cases hh : s.CurrentBarrelHolder = agent.role
    · obtain ⟨_, _, hag⟩ := hresume hh
      intro r a ha
      rw [hag r] at ha
      split_ifs at ha with hr
      · obtain rfl := Option.some.inj ha.symm
        refine ⟨by rw [hr]; exact hempty, by rw [hr]; exact hrole, ?_⟩
        intro _
        rw [hhold, hr]
        exact hh
      · obtain ⟨h1, h2, h3⟩ := hrec r a ha
        refine ⟨h1, h2, fun hw => by rw [hhold]; exact h3 hw⟩
    · obtain ⟨_, _, hag⟩ := hnores hh
      intro r a ha
      rw [hag r] at ha
      split_ifs at ha with hr
      · obtain rfl := Option.some.inj ha.symm
        refine ⟨by rw [hr]; exact hempty, by rw [hr]; exact hrole, ?_⟩
        intro hw
        exact absurd (hw.symm.trans (TransitionTo_waiting_state _)) (by decide)
      · obtain ⟨h1, h2, h3⟩ := hrec r a ha
        refine ⟨h1, h2, fun hw => by rw [hhold]; exact h3 hw⟩

lemma inv_deregister (s : SovietState) (role : String) (now : Nat) (hI : Inv s) :
    Inv (s.DeregisterAgent role now).1 := by
  obtain ⟨⟨b, hb⟩, hrec⟩ := hI
  cases ha : s.agents role with
  | none =>
      rw [DeregisterAgent_unknown s role now ha]
      exact ⟨⟨b, hb⟩, hrec⟩
  | some a =>
      have hrole : role ≠ "" := (hrec role a ha).1
      obtain ⟨_, hag, hbs, hpeople, hkeep⟩ := DeregisterAgent_ok s role now a hrole ha
      refine ⟨?_, ?_⟩
      · rw [hb] at hbs
        exact Option.isSome_iff_exists.mp (by rw [hbs]; rfl)
      · intro r a2 ha2
        rw [hag r] at ha2
        split_ifs at ha2 with hr
        obtain ⟨h1, h2, h3⟩ := hrec r a2 ha2
        refine ⟨h1, h2, ?_⟩
        intro hw
        have hsr := h3 hw
        have hne : s.CurrentBarrelHolder ≠ role := by
          rw [hsr]
          exact hr
        rw [CurrentBarrelHolder_congr _ _ (hkeep hne)]
        exact hsr

lemma inv_yield (s : SovietState) (m : YieldMessage) (now : Nat) (hI : Inv s)
    (hguard : m.fromRole ≠ "people" ∨ s.CurrentBarrelHolder = "people") :
    Inv (s.ProcessYield m now).1 := by
  obtain ⟨⟨b, hb⟩, hrec⟩ := hI
  cases hw : s.ValidateYieldWorkflow m with
  | some e =>
      rw [ProcessYield_err s m now e hw]
      exact ⟨⟨b, hb⟩, hrec⟩
  | none =>
      obtain ⟨hmsg, hrights, htarget, hcons⟩ := ValidateYieldWorkflow_none s m hw
      obtain ⟨hf0, ht0, hfnet⟩ := ValidateYieldMessage_none m hmsg
      have hhold : s.CurrentBarrelHolder = b.currentHolder := CurrentBarrelHolder_some s b hb
      have hto : m.toRole ≠ b.currentHolder := by
        rcases hguard with hfp | hcp
        · rcases ValidateBarrelHolderRights_none s m.fromRole hrights with h | ⟨b2, hb2, hold2⟩
          · exact absurd h hfp
          · rw [hb] at hb2
            obtain rfl := Option.some.inj hb2
            rw [hold2]
            exact fun hc => hfnet hc.symm
        · have hbc : b.currentHolder = "people" := hhold.symm.trans hcp
          have hfp : m.fromRole = "people" := by
            rcases ValidateBarrelHolderRights_none s m.fromRole hrights with h | ⟨b2, hb2, hold2⟩
            · exact h
            · rw [hb] at hb2
              obtain rfl := Option.some.inj hb2
              exact hold2.symm.trans hbc
          exact fun hc => hfnet (hfp.trans (hc.trans hbc).symm)
      obtain ⟨hok2, hokb, hoka⟩ := ProcessYield_ok s m now b hw hb hto
      refine ⟨⟨(b.TransferTo m.toRole m.payload now).1, hokb⟩, ?_⟩
      have hholdres : (s.ProcessYield m now).1.CurrentBarrelHolder = m.toRole := by
        rw [CurrentBarrelHolder_some _ _ hokb,
          TransferTo_ok b m.toRole m.payload now ht0 hto]
      intro r a ha
      rw [hoka r] at ha
      by_cases hcond : m.toRole ≠ "people" ∧ r = m.toRole
      · rw [if_pos hcond, if_neg (fun hc => hfnet (hc.symm.trans hcond.2))] at ha
        obtain ⟨ta, hta, hfa⟩ := Option.map_eq_some'.mp ha
        obtain ⟨h1, h2, _⟩ := hrec r ta hta
        refine ⟨h1, h2, fun _ => ?_⟩
        rw [hholdres, hcond.2]
      · rw [if_neg hcond] at ha
        by_cases hrf : r = m.fromRole
        · rw [if_pos hrf] at ha
          obtain ⟨af, haf, hfa⟩ := Option.map_eq_some'.mp ha
          obtain ⟨h1, h2, _⟩ := hrec r af haf
          refine ⟨h1, h2, ?_⟩
          intro hwk
          rw [← hfa] at hwk
          exact absurd ((Yield_state af).symm.trans hwk) (by decide)
        · rw [if_neg hrf] at ha
          obtain ⟨h1, h2, h3⟩ := hrec r a ha
          refine ⟨h1, h2, ?_⟩
          intro hwk
          exfalso
          have hsr := h3 hwk
          rcases hguard with hfp | hcp
          · rcases ValidateBarrelHolderRights_none s m.fromRole hrights with h | ⟨b2, hb2, hold2⟩
            · exact hfp h
            · rw [hb] at hb2
              obtain rfl := Option.some.inj hb2
              exact hrf (hsr.symm.trans (hhold.trans hold2))
          · exact h2 (hsr.symm.trans hcp)

lemma inv_init (now : Nat) : Inv (initialSoviet now) := by
  refine ⟨⟨NewBarrelOfGun now, rfl⟩, ?_⟩
  intro r a ha
  cases ha

lemma inv_of_reachable (s : SovietState) (h : ReachableByOps s) : Inv s := by
  induction h with
  | init now => exact inv_init now
  | register s agent now _ hrole ih => exact inv_register s agent now ih hrole
  | deregister s role now _ ih => exact inv_deregister s role now ih
  | yield s m now _ hguard ih => exact inv_yield s m now ih hguard

/-- C1 (amended): for every state reachable from the start-up state by
register, deregister and yield operations — restricted so that no
registration uses the reserved role `people` and every yield with
`from_role = "people"` is issued while the people hold the token — at most
one registry record is working, a working record's role equals the token
holder, and no record is working when the holder is `people`. -/
theorem reachable_at_most_one_active (s : SovietState) (h : ReachableByOps s) :
    (∀ r₁ r₂, AgentWorking s r₁ → AgentWorking s r₂ → r₁ = r₂) ∧
    (∀ r, AgentWorking s r → s.CurrentBarrelHolder = r) ∧
    (s.CurrentBarrelHolder = "people" → ∀ r, ¬ AgentWorking s r) := by
  obtain ⟨_, hrec⟩ := inv_of_reachable s h
  refine ⟨?_, ?_, ?_⟩
  · rintro r1 r2 ⟨a1, ha1, hw1⟩ ⟨a2, ha2, hw2⟩
    exact ((hrec r1 a1 ha1).2.2 hw1).symm.trans ((hrec r2 a2 ha2).2.2 hw2)
  · rintro r ⟨a, ha, hwk⟩
    exact (hrec r a ha).2.2 hwk
  · rintro hp r ⟨a, ha, hwk⟩
    exact (hrec r a ha).2.1 (((hrec r a ha).2.2 hwk).symm.trans hp)

/-- C1 counterexample: the unrestricted claim fails on the code. After
registering `developer` and `tester` and yielding the token from the
people to `tester`, a people-override yield to `developer` succeeds yet
leaves the previous active holder `tester` working — two records are
active at once and the S4 idle transition never happens. -/
theorem people_override_two_active_counterexample :
    (let s2 := (((initialSoviet 0).RegisterAgent
        (NewAgentComrade "developer" "worker" ["code"] 1) 1).1.RegisterAgent
          (NewAgentComrade "tester" "worker" ["test"] 2) 2).1
     let y1 := s2.ProcessYield (NewYieldMessage "people" "tester" "task one" 3) 3
     let y2 := y1.1.ProcessYield (NewYieldMessage "people" "developer" "pivot" 4) 4
     y1.2 = none ∧
     (y1.1.agents "tester").map AgentComrade.state = some AgentState.working ∧
     y1.1.CurrentBarrelHolder = "tester" ∧
     y2.2 = none ∧
     (y2.1.agents "tester").map AgentComrade.state = some AgentState.working ∧
     (y2.1.agents "developer").map AgentComrade.state = some AgentState.working ∧
     y2.1.CurrentBarrelHolder = "developer") := by
  decide

/-- C1 witness: the invariant instantiated at a concrete reachable state
(register `developer`, then the people yield to `developer`). -/
theorem reachable_at_most_one_active_witness :
    (let s1 := ((initialSoviet 0).RegisterAgent
        (NewAgentComrade "developer" "worker" ["code"] 1) 1).1
     let s2 := (s1.ProcessYield (NewYieldMessage "people" "developer" "build" 2) 2).1
     (∀ r₁ r₂, AgentWorking s2 r₁ → AgentWorking s2 r₂ → r₁ = r₂) ∧
     (∀ r, AgentWorking s2 r → s2.CurrentBarrelHolder = r) ∧
     (s2.CurrentBarrelHolder = "people" → ∀ r, ¬ AgentWorking s2 r)) :=
  reachable_at_most_one_active _
    (ReachableByOps.yield _ _ 2
      (ReachableByOps.register _ _ 1 (ReachableByOps.init 0) (by decide))
      (Or.inr (by decide)))

/-- C2 (amended): a registration with an empty role is rejected by the
protocol message validator and by the registry-level register operation
(which inserts nothing); the reserved role `people` is rejected only by
the protocol-level `validateRegisterMessage` — the registry-level
`RegisterAgent` accepts `people` and inserts a record for it. -/
theorem register_reserved_role_validation (s : SovietState) (agent : AgentComrade)
    (now : Nat) (msg : RegisterMessage) :
    ((msg.role = "" ∨ msg.role = "people") → (validateRegisterMessage msg).isSome = true) ∧
    (agent.role = "" →
      (s.RegisterAgent agent now).2.2.2.isSome = true ∧
      ∀ r, ((s.RegisterAgent agent now).1.agents r).isSome = (s.agents r).isSome) ∧
    (agent.role = "people" →
      (s.RegisterAgent agent now).2.2.2 = none ∧
      ((s.RegisterAgent agent now).1.agents "people").isSome = true) := by
  refine ⟨?_, ?_, ?_⟩
  · intro h
    unfold validateRegisterMessage
    split_ifs with h1 h2 h3
    · rfl
    · rfl
    · rfl
    · rcases h with h | h
      · exact absurd h h2
      · exact absurd h h3
  · intro h
    obtain ⟨h1, _, _, h4⟩ := RegisterAgent_empty_role s agent now h
    exact ⟨h1, h4⟩
  · intro hp
    have hne : agent.role ≠ "" := by rw [hp]; decide
    obtain ⟨herr, hres, hnores⟩ := RegisterAgent_ok s agent now hne
    refine ⟨herr, ?_⟩
    by_cases hh : s.CurrentBarrelHolder = agent.role
    · obtain ⟨_, _, hag⟩ := hres hh
      rw [hag "people", if_pos hp.symm]
      rfl
    · obtain ⟨_, _, hag⟩ := hnores hh
      rw [hag "people", if_pos hp.symm]
      rfl

/-- C2 counterexample: the claim as stated fails — registering role
`people` at the domain level succeeds and inserts a record into the
registry. -/
theorem register_people_accepted_counterexample :
    ((initialSoviet 0).RegisterAgent (NewAgentComrade "people" "worker" [] 1) 1).2.2.2 = none ∧
    (((initialSoviet 0).RegisterAgent
      (NewAgentComrade "people" "worker" [] 1) 1).1.agents "people").isSome = true := by
  decide

/-- C2 witness: the amended statement instantiated at a concrete message
and agent. -/
theorem register_reserved_role_validation_witness :
    ((("" : String) = "" ∨ ("" : String) = "people") →
      (validateRegisterMessage { type := "REGISTER", role := "", description := "d" }).isSome = true) ∧
    ((NewAgentComrade "" "worker" [] 0).role = "" →
      ((initialSoviet 0).RegisterAgent (NewAgentComrade "" "worker" [] 0) 1).2.2.2.isSome = true ∧
      ∀ r, (((initialSoviet 0).RegisterAgent
        (NewAgentComrade "" "worker" [] 0) 1).1.agents r).isSome =
          ((initialSoviet 0).agents r).isSome) ∧
    ((NewAgentComrade "" "worker" [] 0).role = "people" →
      ((initialSoviet 0).RegisterAgent (NewAgentComrade "" "worker" [] 0) 1).2.2.2 = none ∧
      (((initialSoviet 0).RegisterAgent
        (NewAgentComrade "" "worker" [] 0) 1).1.agents "people").isSome = true) :=
  register_reserved_role_validation (initialSoviet 0) (NewAgentComrade "" "worker" [] 0) 1
    { type := "REGISTER", role := "", description := "d" }

/-- C3 (confirmed): a yield whose `from_role` is neither `people` nor the
token's current holder returns an error and leaves the whole state —
token, registry and every agent record — unchanged. -/
theorem yield_unauthorized_rejected (s : SovietState) (m : YieldMessage) (now : Nat)
    (h1 : m.fromRole ≠ "people") (h2 : s.CurrentBarrelHolder ≠ m.fromRole) :
    (s.ProcessYield m now).2.isSome = true ∧ (s.ProcessYield m now).1 = s :=
  ⟨(ProcessYield_unauthorized s m now h1 h2).2, (ProcessYield_unauthorized s m now h1 h2).1⟩

/-- C3 witness: an unauthorized yield from `tester` against the start-up
state errors and changes nothing. -/
theorem yield_unauthorized_rejected_witness :
    ((initialSoviet 0).ProcessYield (NewYieldMessage "tester" "people" "x" 1) 1).2.isSome = true ∧
    ((initialSoviet 0).ProcessYield (NewYieldMessage "tester" "people" "x" 1) 1).1 =
      initialSoviet 0 :=
  yield_unauthorized_rejected (initialSoviet 0) (NewYieldMessage "tester" "people" "x" 1) 1
    (by decide) (by decide)

/-- C4 (confirmed): registering a non-empty role `r` succeeds; when the
token holder equals `r` it reports `resumed = true` with the token's last
payload and the new record is working, otherwise it reports
`resumed = false` with an empty payload and the new record is waiting. -/
theorem register_resume_semantics (s : SovietState) (agent : AgentComrade) (now : Nat)
    (hrole : agent.role ≠ "") :
    (s.CurrentBarrelHolder = agent.role →
      (s.RegisterAgent agent now).2.2.2 = none ∧
      (s.RegisterAgent agent now).2.1 = true ∧
      (∀ b, s.barrel = some b → (s.RegisterAgent agent now).2.2.1 = b.lastMessage) ∧
      (∃ a, (s.RegisterAgent agent now).1.agents agent.role = some a ∧
        a.state = AgentState.working)) ∧
    (s.CurrentBarrelHolder ≠ agent.role →
      (s.RegisterAgent agent now).2.2.2 = none ∧
      (s.RegisterAgent agent now).2.1 = false ∧
      (s.RegisterAgent agent now).2.2.1 = "" ∧
      (∃ a, (s.RegisterAgent agent now).1.agents agent.role = some a ∧
        a.state = AgentState.waiting)) := by
  obtain ⟨herr, hres, hnores⟩ := RegisterAgent_ok s agent now hrole
  constructor
  · intro hh
    obtain ⟨h1, h2, hag⟩ := hres hh
    refine ⟨herr, h1, h2, ?_⟩
    exact ⟨_, by rw [hag agent.role, if_pos rfl],
      TransitionTo_working_of_waiting _ (TransitionTo_waiting_state _)⟩
  · intro hh
    obtain ⟨h1, h2, hag⟩ := hnores hh
    refine ⟨herr, h1, h2, ?_⟩
    exact ⟨_, by rw [hag agent.role, if_pos rfl], TransitionTo_waiting_state _⟩

/-- C4 witness: the registration semantics instantiated at the start-up
state and a fresh `developer` agent. -/
theorem register_resume_semantics_witness :
    ((initialSoviet 0).CurrentBarrelHolder = (NewAgentComrade "developer" "worker" [] 0).role →
      ((initialSoviet 0).RegisterAgent (NewAgentComrade "developer" "worker" [] 0) 1).2.2.2 = none ∧
      ((initialSoviet 0).RegisterAgent (NewAgentComrade "developer" "worker" [] 0) 1).2.1 = true ∧
      (∀ b, (initialSoviet 0).barrel = some b →
        ((initialSoviet 0).RegisterAgent
          (NewAgentComrade "developer" "worker" [] 0) 1).2.2.1 = b.lastMessage) ∧
      (∃ a, ((initialSoviet 0).RegisterAgent
          (NewAgentComrade "developer" "worker" [] 0) 1).1.agents
            (NewAgentComrade "developer" "worker" [] 0).role = some a ∧
        a.state = AgentState.working)) ∧
    ((initialSoviet 0).CurrentBarrelHolder ≠ (NewAgentComrade "developer" "worker" [] 0).role →
      ((initialSoviet 0).RegisterAgent (NewAgentComrade "developer" "worker" [] 0) 1).2.2.2 = none ∧
      ((initialSoviet 0).RegisterAgent (NewAgentComrade "developer" "worker" [] 0) 1).2.1 = false ∧
      ((initialSoviet 0).RegisterAgent (NewAgentComrade "developer" "worker" [] 0) 1).2.2.1 = "" ∧
      (∃ a, ((initialSoviet 0).RegisterAgent
          (NewAgentComrade "developer" "worker" [] 0) 1).1.agents
            (NewAgentComrade "developer" "worker" [] 0).role = some a ∧
        a.state = AgentState.waiting)) :=
  register_resume_semantics (initialSoviet 0) (NewAgentComrade "developer" "worker" [] 0) 1
    (by decide)

/-- C5 (confirmed): deregistering a registered non-empty role succeeds and
removes the record, returning the token to the people when the departing
role held it; deregistering an unknown role fails and changes nothing. -/
theorem deregister_semantics (s : SovietState) (role : String) (now : Nat) :
    (∀ a, role ≠ "" → s.agents role = some a →
      (s.DeregisterAgent role now).2 = none ∧
      (s.DeregisterAgent role now).1.agents role = none ∧
      (s.CurrentBarrelHolder = role →
        (s.DeregisterAgent role now).1.CurrentBarrelHolder = "people")) ∧
    (s.agents role = none →
      (s.DeregisterAgent role now).2.isSome = true ∧ (s.DeregisterAgent role now).1 = s) := by
  constructor
  · intro a hrole ha
    obtain ⟨h1, hag, _, hpe, _⟩ := DeregisterAgent_ok s role now a hrole ha
    exact ⟨h1, by rw [hag role, if_pos rfl], hpe⟩
  · intro h
    rw [DeregisterAgent_unknown s role now h]
    exact ⟨rfl, rfl⟩

/-- C5 witness: the deregistration semantics instantiated after
registering `developer`. -/
theorem deregister_semantics_witness :
    (let s1 := ((initialSoviet 0).RegisterAgent (NewAgentComrade "developer" "worker" [] 0) 1).1
     (∀ a, ("developer" : String) ≠ "" → s1.agents "developer" = some a →
        (s1.DeregisterAgent "developer" 2).2 = none ∧
        (s1.DeregisterAgent "developer" 2).1.agents "developer" = none ∧
        (s1.CurrentBarrelHolder = "developer" →
          (s1.DeregisterAgent "developer" 2).1.CurrentBarrelHolder = "people")) ∧
     (s1.agents "developer" = none →
        (s1.DeregisterAgent "developer" 2).2.isSome = true ∧
        (s1.DeregisterAgent "developer" 2).1 = s1)) :=
  deregister_semantics
    ((initialSoviet 0).RegisterAgent (NewAgentComrade "developer" "worker" [] 0) 1).1
    "developer" 2

/-- C6 (confirmed): `TransferTo` fails exactly when the target is empty or
equals the current holder; otherwise it succeeds, updates the holder,
records the payload and timestamp, and appends exactly one record to the
transfer log. -/
theorem transferTo_semantics (b : BarrelOfGun) (target payload : String) (now : Nat) :
    ((b.TransferTo target payload now).2.isSome = true ↔
      (target = "" ∨ target = b.currentHolder)) ∧
    (target ≠ "" → target ≠ b.currentHolder →
      (b.TransferTo target payload now).2 = none ∧
      (b.TransferTo target payload now).1.currentHolder = target ∧
      (b.TransferTo target payload now).1.lastMessage = payload ∧
      (b.TransferTo target payload now).1.transferTime = now ∧
      (b.TransferTo target payload now).1.history =
        b.history ++ [{ fromRole := b.currentHolder
                        toRole := target
                        message := payload
                        timestamp := now }]) := by
  constructor
  · constructor
    · intro h
      by_contra hc
      push_neg at hc
      rw [TransferTo_ok b target payload now hc.1 hc.2] at h
      simp at h
    · intro h
      exact (TransferTo_err b target payload now h).2
  · intro h1 h2
    rw [TransferTo_ok b target payload now h1 h2]
    exact ⟨rfl, rfl, rfl, rfl, rfl⟩

/-- C6 witness: the transfer semantics instantiated on a fresh barrel. -/
theorem transferTo_semantics_witness :
    (((NewBarrelOfGun 0).TransferTo "developer" "go" 1).2.isSome = true ↔
      (("developer" : String) = "" ∨ "developer" = (NewBarrelOfGun 0).currentHolder)) ∧
    (("developer" : String) ≠ "" → ("developer" : String) ≠ (NewBarrelOfGun 0).currentHolder →
      ((NewBarrelOfGun 0).TransferTo "developer" "go" 1).2 = none ∧
      ((NewBarrelOfGun 0).TransferTo "developer" "go" 1).1.currentHolder = "developer" ∧
      ((NewBarrelOfGun 0).TransferTo "developer" "go" 1).1.lastMessage = "go" ∧
      ((NewBarrelOfGun 0).TransferTo "developer" "go" 1).1.transferTime = 1 ∧
      ((NewBarrelOfGun 0).TransferTo "developer" "go" 1).1.history =
        (NewBarrelOfGun 0).history ++ [{ fromRole := (NewBarrelOfGun 0).currentHolder
                                         toRole := "developer"
                                         message := "go"
                                         timestamp := 1 }]) :=
  transferTo_semantics (NewBarrelOfGun 0) "developer" "go" 1

/-- C7 counterexample: a sender with no registry record does not pass the
state-consistency check — `ValidateAgentStateConsistency` errors with
agent not found on the empty registry. -/
theorem state_consistency_missing_record_counterexample :
    ((initialSoviet 0).ValidateAgentStateConsistency "developer").isSome = true := by
  decide

/-- C7 (amended): with a barrel set, the state-consistency check passes
exactly when the sender has a registry record whose working state agrees
with whether the sender holds the token; in particular a sender with no
record fails the check (it does not pass, contrary to the claim). -/
theorem state_consistency_check_semantics (s : SovietState) (r : String) (b : BarrelOfGun)
    (hb : s.barrel = some b) :
    s.ValidateAgentStateConsistency r = none ↔
      ∃ a, s.agents r = some a ∧ (a.state = AgentState.working ↔ b.currentHolder = r) := by
  constructor
  · intro h
    obtain ⟨a, b2, ha, hb2, hiff⟩ := ValidateAgentStateConsistency_none s r h
    rw [hb] at hb2
    obtain rfl := Option.some.inj hb2
    exact ⟨a, ha, hiff⟩
  · rintro ⟨a, ha, hiff⟩
    unfold SovietState.ValidateAgentStateConsistency SovietState.GetAgent
    rw [ha]
    dsimp only
    rw [hb]
    dsimp only
    by_cases hw : a.state = AgentState.working
    · have hh : b.IsHeldBy r = true := (IsHeldBy_iff b r).mpr (hiff.mp hw)
      rw [if_neg (fun hc => hc.2 hw), if_neg (fun hc => hc.1 hh)]
    · have hh : b.IsHeldBy r ≠ true := fun hc => hw (hiff.mpr ((IsHeldBy_iff b r).mp hc))
      rw [if_neg (fun hc => hh hc.1), if_neg (fun hc => hw hc.2)]

/-- C7 witness: the characterization instantiated at the start-up
state. -/
theorem state_consistency_check_semantics_witness :
    (initialSoviet 0).ValidateAgentStateConsistency "developer" = none ↔
      ∃ a, (initialSoviet 0).agents "developer" = some a ∧
        (a.state = AgentState.working ↔ (NewBarrelOfGun 0).currentHolder = "developer") :=
  state_consistency_check_semantics (initialSoviet 0) "developer" (NewBarrelOfGun 0) rfl

/-- C8 (confirmed): target validation always accepts `people`; a
non-people target is accepted exactly when it is registered and
connected, and a yield to a registered but disconnected target errors
without mutating any state. -/
theorem yield_target_validation (s : SovietState) (t : String) (m : YieldMessage) (now : Nat) :
    (s.ValidateTargetAgent "people" = none) ∧
    (t ≠ "people" →
      (s.ValidateTargetAgent t = none ↔ ∃ a, s.agents t = some a ∧ a.connected = true)) ∧
    (∀ a, m.toRole ≠ "people" → s.agents m.toRole = some a → a.connected = false →
      (s.ProcessYield m now).2.isSome = true ∧ (s.ProcessYield m now).1 = s) := by
  refine ⟨?_, ?_, ?_⟩
  · unfold SovietState.ValidateTargetAgent
    rw [if_pos rfl]
  · intro hp
    constructor
    · intro h
      rcases ValidateTargetAgent_none s t h with h1 | h2
      · exact absurd h1 hp
      · exact h2
    · rintro ⟨a, ha, hc⟩
      unfold SovietState.ValidateTargetAgent SovietState.IsAgentRegistered SovietState.GetAgent
      rw [if_neg hp, ha]
      rw [if_neg (by simp)]
      dsimp only
      rw [if_neg (by rw [hc]; decide)]
  · intro a hp ha hc
    exact ⟨(ProcessYield_target_invalid s m now a hp ha hc).2,
      (ProcessYield_target_invalid s m now a hp ha hc).1⟩

/-- C8 witness: target validation instantiated on a registry holding a
disconnected `tester`. -/
theorem yield_target_validation_witness :
    (let s1 := (initialSoviet 0).setAgent "tester" (some (NewAgentComrade "tester" "worker" [] 0))
     (s1.ValidateTargetAgent "people" = none) ∧
     (("tester" : String) ≠ "people" →
        (s1.ValidateTargetAgent "tester" = none ↔
          ∃ a, s1.agents "tester" = some a ∧ a.connected = true)) ∧
     (∀ a, (NewYieldMessage "developer" "tester" "x" 1).toRole ≠ "people" →
        s1.agents (NewYieldMessage "developer" "tester" "x" 1).toRole = some a →
        a.connected = false →
        (s1.ProcessYield (NewYieldMessage "developer" "tester" "x" 1) 2).2.isSome = true ∧
        (s1.ProcessYield (NewYieldMessage "developer" "tester" "x" 1) 2).1 = s1)) :=
  yield_target_validation
    ((initialSoviet 0).setAgent "tester" (some (NewAgentComrade "tester" "worker" [] 0)))
    "tester" (NewYieldMessage "developer" "tester" "x" 1) 2

/-- C9 (amended): a yield that passes the validation pipeline and whose
target differs from the current holder succeeds, moves the token to
`to_role`, and — although the source and target transition errors are
silently discarded — always leaves a non-people target's record in the
working state. -/
theorem yield_validated_success_semantics (s : SovietState) (m : YieldMessage) (now : Nat)
    (b : BarrelOfGun) (hb : s.barrel = some b)
    (hw : s.ValidateYieldWorkflow m = none) (hto : m.toRole ≠ b.currentHolder) :
    (s.ProcessYield m now).2 = none ∧
    (s.ProcessYield m now).1.CurrentBarrelHolder = m.toRole ∧
    (m.toRole ≠ "people" →
      ∃ a, (s.ProcessYield m now).1.agents m.toRole = some a ∧
        a.state = AgentState.working) := by
  obtain ⟨hmsg, hrights, htarget, hcons⟩ := ValidateYieldWorkflow_none s m hw
  obtain ⟨hf0, ht0, hfnet⟩ := ValidateYieldMessage_none m hmsg
  obtain ⟨h2, hbr, hag⟩ := ProcessYield_ok s m now b hw hb hto
  refine ⟨h2, ?_, ?_⟩
  · rw [CurrentBarrelHolder_some _ _ hbr, TransferTo_ok b m.toRole m.payload now ht0 hto]
  · intro hp
    rcases ValidateTargetAgent_none s m.toRole htarget with h | ⟨ta, hta, _⟩
    · exact absurd h hp
    · rw [hag m.toRole, if_pos ⟨hp, rfl⟩, if_neg (fun hc => hfnet hc.symm), hta]
      exact ⟨_, rfl, Activate_state ta m.payload now⟩

/-- C9 counterexample: the claim as stated fails — a people-yield to the
current holder passes the whole validation pipeline yet `ProcessYield`
returns an error, because the token transfer itself rejects a transfer to
the current holder. -/
theorem yield_validated_transfer_error_counterexample :
    (let s1 := ((initialSoviet 0).RegisterAgent (NewAgentComrade "developer" "worker" [] 1) 1).1
     let s2 := (s1.ProcessYield (NewYieldMessage "people" "developer" "w" 2) 2).1
     let m := NewYieldMessage "people" "developer" "p" 3
     s2.ValidateYieldWorkflow m = none ∧ (s2.ProcessYield m 4).2.isSome = true) := by
  decide

/-- C9 witness: the amended yield semantics instantiated on a reachable
state where `developer` holds the token and `tester` is registered. -/
theorem yield_validated_success_semantics_witness :
    (let s1 := ((initialSoviet 0).RegisterAgent (NewAgentComrade "developer" "worker" [] 1) 1).1
     let s2 := (s1.ProcessYield (NewYieldMessage "people" "developer" "w" 2) 2).1
     let s3 := (s2.RegisterAgent (NewAgentComrade "tester" "worker" [] 3) 3).1
     let m := NewYieldMessage "people" "tester" "handoff" 4
     (s3.ProcessYield m 5).2 = none ∧
     (s3.ProcessYield m 5).1.CurrentBarrelHolder = m.toRole ∧
     (m.toRole ≠ "people" →
        ∃ a, (s3.ProcessYield m 5).1.agents m.toRole = some a ∧
          a.state = AgentState.working)) :=
  yield_validated_success_semantics _ (NewYieldMessage "people" "tester" "handoff" 4) 5
    (((NewBarrelOfGun 0).TransferTo "developer" "w" 2).1) (by decide) (by decide) (by decide)

/-- C10 (confirmed): no `RegisterAgent` call ever modifies the token: the
barrel — holder, last payload and transfer log — is identical before and
after every registration, including the resume path. -/
theorem register_token_frame (s : SovietState) (agent : AgentComrade) (now : Nat) :
    (s.RegisterAgent agent now).1.barrel = s.barrel :=
  RegisterAgent_token_frame s agent now

end AgentFarm
